import Mathlib

/-
Shallow embedding of the acoustic feature extraction pipeline of
src/backend/app.py (functions compute_basic_features, compute_mfcc,
extract_praat_features and the extract_features route).

Numeric values are modelled as rationals.  Calls into external numeric
libraries (numpy sqrt/exp/log, scipy.signal.periodogram, np.fft, and the
parselmouth/Praat analysis objects) are modelled as abstract inputs: a
FloatOps record for the scalar transcendental routines and a FeatureEnv
record mapping the decoded sample list to the library outputs the source
consumes.  Fallible library calls are modelled with Except.  All control
flow, guards, defaults and arithmetic written in app.py itself is
translated directly.
-/

/-- Scalar numeric library routines used by compute_basic_features
(np.sqrt, np.exp, np.log).  The pipeline only pipes their outputs
through; theorems assume only the mathematical contracts they need. -/
structure FloatOps where
  sqrt : ℚ → ℚ
  exp : ℚ → ℚ
  log : ℚ → ℚ

/-- np.mean of a list of rationals (division by zero yields 0 in ℚ; every
use in the pipeline is guarded by a positive-length check, mirroring the
guards in app.py). -/
def meanQ (l : List ℚ) : ℚ := l.sum / (l.length : ℚ)

/-- np.max of a list (only ever applied to non-empty lists in the source;
the nil case is dead code supplied for totality). -/
def listMax : List ℚ → ℚ
  | [] => 0
  | x :: xs => xs.foldl max x

/-- np.min of a list (only ever applied to non-empty lists in the source;
the nil case is dead code supplied for totality). -/
def listMin : List ℚ → ℚ
  | [] => 0
  | x :: xs => xs.foldl min x

/-- np.sum(np.abs(np.diff(np.signbit(x)))) from compute_basic_features:
the number of adjacent pairs whose signbit (strictly negative test)
differs. -/
def countSignChanges : List ℚ → Nat
  | a :: b :: rest =>
      (if decide (a < 0) ≠ decide (b < 0) then 1 else 0) + countSignChanges (b :: rest)
  | _ => 0

/-- The epsilon 1e-20 used to floor every periodogram bin in
compute_basic_features (app.py line 45). -/
def epsFloor : ℚ := 1 / 10 ^ 20

/-- np.maximum(psd, 1e-20): floor every power bin at epsFloor. -/
def floorEps (psd : List ℚ) : List ℚ := psd.map (fun p => max p epsFloor)

/-- The guarded arithmetic mean of the (already floored) power bins:
float(np.mean(psd)) if psd.size > 0 else 0.0 (app.py line 50). -/
def arithMeanGuard (l : List ℚ) : ℚ := if 0 < l.length then meanQ l else 0

/-- RMS: float(np.sqrt(np.mean(np.square(x)))) if x.size > 0 else 0.0
(app.py line 36). -/
def rmsOf (ops : FloatOps) (x : List ℚ) : ℚ :=
  if 0 < x.length then ops.sqrt (meanQ (x.map (fun v => v * v))) else 0

/-- ZCR: sign-change count over x.size - 1 when x.size > 1, else 0
(app.py lines 38-39). -/
def zcrOf (x : List ℚ) : ℚ :=
  if 1 < x.length then (countSignChanges x : ℚ) / ((x.length : ℚ) - 1) else 0

/-- Spectral centroid on the floored power bins:
float(np.sum(freqs * psd) / np.sum(psd)) if np.sum(psd) > 0 else 0.0
(app.py line 47). -/
def spectralCentroidOf (freqs pf : List ℚ) : ℚ :=
  if 0 < pf.sum then (List.zipWith (fun f p => f * p) freqs pf).sum / pf.sum else 0

/-- Spectral flatness on the floored power bins: geometric mean
exp(mean(log psd)) over the guarded arithmetic mean, with the 0 fallback
when the arithmetic mean is not positive (app.py lines 49-51). -/
def spectralFlatnessOf (ops : FloatOps) (pf : List ℚ) : ℚ :=
  if 0 < arithMeanGuard pf then
    ops.exp (meanQ (pf.map ops.log)) / arithMeanGuard pf
  else 0

/-- Result record of compute_basic_features. -/
structure BasicFeatures where
  rms : ℚ
  zcr : ℚ
  spectralCentroid : ℚ
  spectralFlatness : ℚ

/-- compute_basic_features (app.py lines 31-57).  The scipy periodogram
call is modelled by the pg argument: the (freqs, psd) pair it returns, or
an error when the library call raises.  The source returns the all-zero
record before calling the periodogram when the sample array is empty; a
periodogram exception is not caught anywhere in this function, so it
propagates (modelled by the Except.error branch). -/
def compute_basic_features (ops : FloatOps) (x : List ℚ)
    (pg : Except Unit (List ℚ × List ℚ)) : Except Unit BasicFeatures :=
  if x.length = 0 then Except.ok ⟨0, 0, 0, 0⟩
  else
    match pg with
    | Except.error e => Except.error e
    | Except.ok (freqs, psd0) =>
        Except.ok ⟨rmsOf ops x, zcrOf x,
          spectralCentroidOf freqs (floorEps psd0),
          spectralFlatnessOf ops (floorEps psd0)⟩

/-- Band start index int((i * len(magnitude)) / num_coeffs) of
compute_mfcc (app.py line 206); Python float division then int()
truncation equals Nat floor division here. -/
def bandStart (num_coeffs n i : Nat) : Nat := (i * n) / num_coeffs

/-- Band end index int(((i + 1) * len(magnitude)) / num_coeffs) of
compute_mfcc (app.py line 207). -/
def bandEnd (num_coeffs n i : Nat) : Nat := ((i + 1) * n) / num_coeffs

/-- One coefficient of compute_mfcc: the mean of magnitude[start:end]
when end > start, else 0.0 (app.py line 208). -/
def bandCoeff (magnitude : List ℚ) (num_coeffs i : Nat) : ℚ :=
  if bandStart num_coeffs magnitude.length i < bandEnd num_coeffs magnitude.length i then
    meanQ ((magnitude.drop (bandStart num_coeffs magnitude.length i)).take
      (bandEnd num_coeffs magnitude.length i - bandStart num_coeffs magnitude.length i))
  else 0

/-- The mfccs loop of compute_mfcc (app.py lines 204-209). -/
def mfccBands (magnitude : List ℚ) (num_coeffs : Nat) : List ℚ :=
  (List.range num_coeffs).map (fun i => bandCoeff magnitude num_coeffs i)

/-- compute_mfcc (app.py lines 196-214).  The np.fft.fft call and the
lower-half magnitude extraction np.abs(fft[:len(fft)//2]) are library
work, modelled by the fftMagnitude argument; the bare except returns
[0.0] * num_coeffs when that computation raises. -/
def compute_mfcc (fftMagnitude : Except Unit (List ℚ)) (num_coeffs : Nat) : List ℚ :=
  match fftMagnitude with
  | Except.ok magnitude => mfccBands magnitude num_coeffs
  | Except.error _ => List.replicate num_coeffs 0

/-- Outputs of the parselmouth/Praat library calls consumed by
extract_praat_features: fails models an exception anywhere in the praat
chain outside the two inner handlers (caught by the outer try at app.py
line 182); f0Values is the list of positive pitch samples collected over
the 10 ms grid (lines 84-87); f1Values/f2Values likewise for the formant
track (lines 116-122); pulseFails models the To PointProcess call
raising (caught at line 155); nPulses is Get number of points;
jitterRaw/shimmerRaw are the Get jitter/shimmer call results, error when
the call raises (caught at lines 146 and 153). -/
structure PraatIn where
  fails : Bool
  duration : ℚ
  f0Values : List ℚ
  f1Values : List ℚ
  f2Values : List ℚ
  pulseFails : Bool
  nPulses : Nat
  jitterRaw : Except Unit ℚ
  shimmerRaw : Except Unit ℚ

/-- Result record of extract_praat_features. -/
structure PraatFeatures where
  f0_mean : ℚ
  f0_range : ℚ
  jitter : ℚ
  shimmer : ℚ
  f1 : ℚ
  f2 : ℚ
  speech_rate : ℚ

/-- The all-zero defaults returned when the whole praat chain fails
(app.py lines 185-193). -/
def praatDefaults : PraatFeatures := ⟨0, 0, 0, 0, 0, 0, 0⟩

/-- Jitter aggregation (app.py lines 130-158): 0 if the pulse extraction
raised, else the jitter call result times 100 when more than one pulse
exists (0 if that call raised), else the initial 0. -/
def jitterOf (pin : PraatIn) : ℚ :=
  if pin.pulseFails then 0
  else if 1 < pin.nPulses then
    match pin.jitterRaw with
    | Except.ok j => j * 100
    | Except.error _ => 0
  else 0

/-- Shimmer aggregation, same structure as jitterOf (app.py lines
149-158). -/
def shimmerOf (pin : PraatIn) : ℚ :=
  if pin.pulseFails then 0
  else if 1 < pin.nPulses then
    match pin.shimmerRaw with
    | Except.ok s => s * 100
    | Except.error _ => 0
  else 0

/-- Speech-rate heuristic (app.py lines 160-171): 0 when no voiced
frames; otherwise voicedFrames * 0.01 / 0.5 words, converted to words
per minute over the duration (0 when duration is not positive), then
clamped by max(80, min(200, rate)). -/
def speechRateOf (voicedFrames : Nat) (duration : ℚ) : ℚ :=
  if 0 < voicedFrames then
    max 80 (min 200
      (if 0 < duration then (((voicedFrames : ℚ) * (1 / 100)) / (1 / 2)) / duration * 60 else 0))
  else 0

/-- extract_praat_features (app.py lines 60-193) as a function of the
library outputs: on outer failure the documented zero defaults; else the
source's aggregation of the pitch, formant, perturbation and speech-rate
values.  len(f0_values) > 0 guards the pitch aggregates and the speech
rate; len(f1_values) > 0 and len(f2_values) > 0 guard the formant
means. -/
def extract_praat_features (pin : PraatIn) : PraatFeatures :=
  if pin.fails then praatDefaults
  else
    { f0_mean := if 0 < pin.f0Values.length then meanQ pin.f0Values else 0
      f0_range := if 0 < pin.f0Values.length then listMax pin.f0Values - listMin pin.f0Values else 0
      jitter := jitterOf pin
      shimmer := shimmerOf pin
      f1 := if 0 < pin.f1Values.length then meanQ pin.f1Values else 0
      f2 := if 0 < pin.f2Values.length then meanQ pin.f2Values else 0
      speech_rate := speechRateOf pin.f0Values.length pin.duration }

/-- Modelled from the spec: the PulseTrain is derived from the pitch and
voicing decision, a pulse requiring at least 2 consecutive voiced
periods, so a clip with zero voiced frames yields zero pulses.  The
derivation lives inside the Praat library (not under src/), so this
consistency between the two library outputs is taken from the spec. -/
def VoicingPulseConsistent (pin : PraatIn) : Prop :=
  pin.f0Values = [] → pin.nPulses = 0

/-- One 16-bit little-endian word reinterpreted as a signed int16, as
np.frombuffer(dtype=np.int16) does. -/
def toInt16 (w : Nat) : Int :=
  if w % 65536 < 32768 then ((w % 65536 : Nat) : Int)
  else ((w % 65536 : Nat) : Int) - 65536

/-- np.frombuffer(audio_data, dtype=np.int16): consume the byte list in
little-endian pairs; a buffer whose size is not a multiple of 2 raises
(modelled by none). -/
def bytesToInt16 : List Nat → Option (List Int)
  | [] => some []
  | [_] => none
  | lo :: hi :: rest =>
      match bytesToInt16 rest with
      | none => none
      | some r => some (toInt16 (lo + 256 * hi) :: r)

/-- Lines 308-309 of app.py: drop the fixed 44-byte header, decode the
rest as int16 samples and normalize by 32768 (the float32 quotients of
int16 values are exact, so rationals are faithful). -/
def decodeSamples (data : List Nat) : Option (List ℚ) :=
  match bytesToInt16 (data.drop 44) with
  | none => none
  | some ints => some (ints.map (fun s => (s : ℚ) / 32768))

/-- The JSON feature record assembled by the extract_features route
(app.py lines 344-359). -/
structure FeatureRecord where
  rms : ℚ
  zcr : ℚ
  spectralCentroid : ℚ
  spectralFlatness : ℚ
  mfcc : List ℚ
  f0_mean : ℚ
  f0_range : ℚ
  jitter : ℚ
  shimmer : ℚ
  f1 : ℚ
  f2 : ℚ
  speech_rate : ℚ

/-- Outcome of the extract_features route: the 400 responses for a
missing file field and an empty upload, the 500 response produced by the
outer exception handler, or the 200 feature record. -/
inductive RouteResult where
  | missingFile : RouteResult
  | emptyFile : RouteResult
  | serverError : RouteResult
  | ok : FeatureRecord → RouteResult

/-- Whether the route produced a feature record. -/
def RouteResult.isOk : RouteResult → Bool
  | RouteResult.ok _ => true
  | _ => false

/-- The fixed external libraries as seen by the route: scalar numeric
ops, the scipy periodogram, the np.fft lower-half magnitude and the
parselmouth analysis results, each as a function of the decoded sample
list (errors model the library call raising). -/
structure FeatureEnv where
  ops : FloatOps
  periodogram : List ℚ → Except Unit (List ℚ × List ℚ)
  fftMag : List ℚ → Except Unit (List ℚ)
  praat : List ℚ → PraatIn

/-- The extract_features route (app.py lines 296-364): missing file
field and empty upload are client errors; inside the try block the
sample decode and the basic-feature computation may raise, reaching the
outer handler (serverError); otherwise the mfcc and praat results (whose
failures are absorbed internally) are assembled into the record. -/
def extract_features (env : FeatureEnv) (fileField : Option (List Nat)) : RouteResult :=
  match fileField with
  | none => RouteResult.missingFile
  | some data =>
      if data.length = 0 then RouteResult.emptyFile
      else
        match decodeSamples data with
        | none => RouteResult.serverError
        | some samples =>
            match compute_basic_features env.ops samples (env.periodogram samples) with
            | Except.error _ => RouteResult.serverError
            | Except.ok basic =>
                RouteResult.ok
                  { rms := basic.rms
                    zcr := basic.zcr
                    spectralCentroid := basic.spectralCentroid
                    spectralFlatness := basic.spectralFlatness
                    mfcc := compute_mfcc (env.fftMag samples) 13
                    f0_mean := (extract_praat_features (env.praat samples)).f0_mean
                    f0_range := (extract_praat_features (env.praat samples)).f0_range
                    jitter := (extract_praat_features (env.praat samples)).jitter
                    shimmer := (extract_praat_features (env.praat samples)).shimmer
                    f1 := (extract_praat_features (env.praat samples)).f1
                    f2 := (extract_praat_features (env.praat samples)).f2
                    speech_rate := (extract_praat_features (env.praat samples)).speech_rate }

/-- A concrete FloatOps instance satisfying the contracts the theorems
assume: sqrt sending 0 to 0, a positive exp that inverts log on the
positives. -/
def opsId : FloatOps :=
  { sqrt := fun _ => 0
    exp := fun q => if 0 < q then q else 1
    log := fun q => q }

/-- A concrete praat-library output with no voiced frames and no
pulses. -/
def pinOk : PraatIn :=
  { fails := false, duration := 1, f0Values := [], f1Values := [], f2Values := []
    pulseFails := false, nPulses := 0
    jitterRaw := Except.error (), shimmerRaw := Except.error () }

/-- A concrete praat-library output with one voiced frame. -/
def pinVoiced : PraatIn :=
  { fails := false, duration := 1, f0Values := [100], f1Values := [], f2Values := []
    pulseFails := false, nPulses := 0
    jitterRaw := Except.error (), shimmerRaw := Except.error () }

/-- A concrete environment in which every library call succeeds. -/
def envOk : FeatureEnv :=
  { ops := opsId
    periodogram := fun _ => Except.ok ([], [])
    fftMag := fun _ => Except.ok []
    praat := fun _ => pinOk }

/-- A concrete environment in which the periodogram call raises. -/
def envPgFail : FeatureEnv :=
  { ops := opsId
    periodogram := fun _ => Except.error ()
    fftMag := fun _ => Except.ok []
    praat := fun _ => pinOk }

/-- A concrete environment in which the fft computation raises and the
praat chain fails, as both do on an empty sample array. -/
def envSubFail : FeatureEnv :=
  { ops := opsId
    periodogram := fun _ => Except.ok ([], [])
    fftMag := fun _ => Except.error ()
    praat := fun _ => { pinOk with fails := true } }

/-- A byte list whose length is not a multiple of 2 makes the int16
decode raise, as np.frombuffer does. -/
theorem bytesToInt16_odd (l : List Nat) : l.length % 2 = 1 → bytesToInt16 l = none := by
  have H : ∀ (n : Nat) (l : List Nat), l.length = n → l.length % 2 = 1 → bytesToInt16 l = none := by
    intro n
    induction n using Nat.strong_induction_on with
    | _ n ih =>
      intro l hn h
      match l with
      | [] => simp at h
      | [a] => rfl
      | lo :: hi :: rest =>
        have h2 : rest.length % 2 = 1 := by simp [List.length_cons] at h; omega
        have hlt : rest.length < n := by
          subst hn; simp only [List.length_cons]; omega
        unfold bytesToInt16
        rw [ih rest.length hlt rest rfl h2]
  exact H l.length l rfl

/-- C1 counterexample: a non-empty 44-byte upload (post-header region
empty) is not rejected; the route returns a feature record. -/
theorem c1_counterexample :
    (extract_features envSubFail (some (List.replicate 44 0))).isOk = true := by
  norm_num [extract_features, decodeSamples, bytesToInt16, envSubFail,
    compute_basic_features, RouteResult.isOk]

/-- C1 (amended): the route returns the empty-input client error only
when the uploaded buffer is entirely empty; a non-empty buffer whose
post-header region contains zero samples (44 or fewer bytes) passes the
emptiness check, decodes to an empty sample array, and the extraction
returns a complete feature record rather than an error. -/
theorem c1_thm (env : FeatureEnv) (data : List Nat) :
    (data = [] → extract_features env (some data) = RouteResult.emptyFile)
    ∧ (data ≠ [] → data.length ≤ 44 → (extract_features env (some data)).isOk = true) := by
  refine ⟨fun h => by subst h; rfl, fun hne hlen => ?_⟩
  have h0 : ¬ data.length = 0 := fun h => hne (List.length_eq_zero.mp h)
  have hdrop : data.drop 44 = [] := List.drop_eq_nil_of_le hlen
  simp only [extract_features, decodeSamples]
  rw [hdrop]
  simp [h0, bytesToInt16, compute_basic_features, RouteResult.isOk]

/-- C1 witness: the empty upload is the only one of the two concrete
buffers rejected; the 10-byte upload yields a record. -/
theorem c1_witness :
    extract_features envOk (some []) = RouteResult.emptyFile
    ∧ (extract_features envOk (some (List.replicate 10 0))).isOk = true :=
  ⟨(c1_thm envOk []).1 rfl,
   (c1_thm envOk (List.replicate 10 0)).2 (by decide) (by decide)⟩

/-- C8: the extraction is deterministic; the embedded route is a pure
function of the uploaded buffer and the fixed library environment, so
byte-identical buffers yield identical feature records. -/
theorem c8_thm (env : FeatureEnv) (d1 d2 : List Nat) (h : d1 = d2) :
    extract_features env (some d1) = extract_features env (some d2) := by
  rw [h]

/-- C8 witness at a concrete 46-byte buffer. -/
theorem c8_witness :
    extract_features envOk (some (List.replicate 46 0))
      = extract_features envOk (some (List.replicate 46 0)) :=
  c8_thm envOk (List.replicate 46 0) (List.replicate 46 0) rfl

/-- C10: an upload whose post-header region has odd length makes the
int16 decode raise; the route's outer handler turns this into the server
error, so no feature record is produced. -/
theorem c10_thm (env : FeatureEnv) (data : List Nat)
    (h : (data.drop 44).length % 2 = 1) :
    extract_features env (some data) = RouteResult.serverError := by
  have h0 : ¬ data.length = 0 := by
    intro hlen
    rw [List.length_drop, hlen] at h
    omega
  simp only [extract_features, decodeSamples]
  rw [if_neg h0, bytesToInt16_odd _ h]

/-- C10 witness at a concrete 45-byte buffer (post-header length 1). -/
theorem c10_witness :
    extract_features envOk (some (List.replicate 45 0)) = RouteResult.serverError :=
  c10_thm envOk (List.replicate 45 0) (by decide)

/-- C3 counterexample: with zero voiced frames the returned speech_rate
is 0, below the interval [80, 200] the claim asserts for every input. -/
theorem c3_counterexample : (extract_praat_features pinOk).speech_rate < 80 := by
  norm_num [extract_praat_features, pinOk, speechRateOf]

/-- C3 (amended): with at least one voiced frame and positive duration
the speech rate equals voicedFrames * 0.01 / 0.5 words converted to
words per minute over the duration, clamped by max(80, min(200, rate)),
hence lies in [80, 200]; with zero voiced frames (or a failed praat
chain) it is 0, outside that interval. -/
theorem c3_thm (pin : PraatIn) :
    (pin.fails = false → pin.f0Values ≠ [] → 0 < pin.duration →
      (extract_praat_features pin).speech_rate
        = max 80 (min 200 ((((pin.f0Values.length : ℚ) * (1 / 100)) / (1 / 2)) / pin.duration * 60))
      ∧ 80 ≤ (extract_praat_features pin).speech_rate
      ∧ (extract_praat_features pin).speech_rate ≤ 200)
    ∧ ((pin.fails = true ∨ pin.f0Values = []) → (extract_praat_features pin).speech_rate = 0) := by
  constructor
  · intro hf hne hd
    have hlen : 0 < pin.f0Values.length := List.length_pos.mpr hne
    have hsr : (extract_praat_features pin).speech_rate
        = max 80 (min 200 ((((pin.f0Values.length : ℚ) * (1 / 100)) / (1 / 2)) / pin.duration * 60)) := by
      simp [extract_praat_features, hf, speechRateOf, hlen, hd]
    refine ⟨hsr, ?_, ?_⟩
    · rw [hsr]; exact le_max_left _ _
    · rw [hsr]; exact max_le (by norm_num) (min_le_left _ _)
  · rintro (hf | he)
    · simp [extract_praat_features, hf, praatDefaults]
    · by_cases hf : pin.fails
      · simp [extract_praat_features, hf, praatDefaults]
      · simp [extract_praat_features, hf, speechRateOf, he]

/-- C3 witness: the clamped formula and bounds at one voiced frame, and
the 0 value at zero voiced frames. -/
theorem c3_witness :
    ((extract_praat_features pinVoiced).speech_rate
        = max 80 (min 200 ((((pinVoiced.f0Values.length : ℚ) * (1 / 100)) / (1 / 2))
            / pinVoiced.duration * 60))
      ∧ 80 ≤ (extract_praat_features pinVoiced).speech_rate
      ∧ (extract_praat_features pinVoiced).speech_rate ≤ 200)
    ∧ (extract_praat_features pinOk).speech_rate = 0 :=
  ⟨(c3_thm pinVoiced).1 rfl (by decide) (by decide),
   (c3_thm pinOk).2 (Or.inr rfl)⟩

/-- Every coefficient slot of the mfcc band list holds the band
coefficient of its index. -/
theorem mfccBands_getD (mag : List ℚ) (k i : Nat) (hi : i < k) :
    (mfccBands mag k).getD i 0 = bandCoeff mag k i := by
  simp [mfccBands, List.getD_eq_getElem?_getD, List.getElem?_map, List.getElem?_range, hi]

/-- C4: compute_mfcc returns exactly 13 coefficients for every input:
on the normal path the 13 band means, and the zero vector of length 13
when the fft computation raised. -/
theorem c4_thm (fm : Except Unit (List ℚ)) :
    (compute_mfcc fm 13).length = 13
    ∧ (∀ mag, fm = Except.ok mag →
        ∀ i, i < 13 → (compute_mfcc fm 13).getD i 0 = bandCoeff mag 13 i)
    ∧ (fm = Except.error () → compute_mfcc fm 13 = List.replicate 13 0) := by
  refine ⟨?_, ?_, ?_⟩
  · cases fm with
    | ok mag => simp [compute_mfcc, mfccBands]
    | error e => simp [compute_mfcc]
  · rintro mag rfl i hi
    exact mfccBands_getD mag 13 i hi
  · rintro rfl; rfl

/-- C4 witness: length, a band-mean slot, and the failure path on
concrete inputs. -/
theorem c4_witness :
    (compute_mfcc (Except.ok ([1, 2, 3] : List ℚ)) 13).length = 13
    ∧ (compute_mfcc (Except.ok ([1, 2, 3] : List ℚ)) 13).getD 2 0 = bandCoeff [1, 2, 3] 13 2
    ∧ compute_mfcc (Except.error ()) 13 = List.replicate 13 0 :=
  ⟨(c4_thm (Except.ok [1, 2, 3])).1,
   (c4_thm (Except.ok [1, 2, 3])).2.1 [1, 2, 3] rfl 2 (by decide),
   (c4_thm (Except.error ())).2.2 rfl⟩

/-- C5 counterexample: for a magnitude array of length 14 the 13 bands
are not all the same width (band 0 has width 1, band 12 has width 2). -/
theorem c5_counterexample :
    ¬ (bandEnd 13 (List.replicate 14 (0 : ℚ)).length 0
          - bandStart 13 (List.replicate 14 (0 : ℚ)).length 0
        = bandEnd 13 (List.replicate 14 (0 : ℚ)).length 12
          - bandStart 13 (List.replicate 14 (0 : ℚ)).length 12) := by
  decide

/-- C5 (amended): the approximator partitions the lower-half magnitude
array into 13 contiguous bands covering it whose widths are near-equal
(each is n / 13 rounded down or that plus one, so they differ by at most
one), and coefficient i is the arithmetic mean of band i, or 0 if the
band is empty. -/
theorem c5_thm (mag : List ℚ) (i : Nat) (hi : i < 13) :
    bandStart 13 mag.length 0 = 0
    ∧ bandEnd 13 mag.length 12 = mag.length
    ∧ (i < 12 → bandEnd 13 mag.length i = bandStart 13 mag.length (i + 1))
    ∧ mag.length / 13 ≤ bandEnd 13 mag.length i - bandStart 13 mag.length i
    ∧ bandEnd 13 mag.length i - bandStart 13 mag.length i ≤ mag.length / 13 + 1
    ∧ (mfccBands mag 13).getD i 0 = bandCoeff mag 13 i := by
  refine ⟨?_, ?_, fun _ => rfl, ?_, ?_, mfccBands_getD mag 13 i hi⟩
  · simp [bandStart]
  · show (12 + 1) * mag.length / 13 = mag.length
    omega
  · unfold bandStart bandEnd
    have hm : (i + 1) * mag.length = i * mag.length + mag.length := by ring
    rw [hm]
    generalize mag.length = n at *
    generalize i * n = a
    omega
  · unfold bandStart bandEnd
    have hm : (i + 1) * mag.length = i * mag.length + mag.length := by ring
    rw [hm]
    generalize mag.length = n at *
    generalize i * n = a
    omega

/-- C5 witness: all conjuncts at a concrete length-2 magnitude array and
band index 5. -/
theorem c5_witness :
    bandStart 13 ([1, 2] : List ℚ).length 0 = 0
    ∧ bandEnd 13 ([1, 2] : List ℚ).length 12 = ([1, 2] : List ℚ).length
    ∧ (5 < 12 → bandEnd 13 ([1, 2] : List ℚ).length 5
        = bandStart 13 ([1, 2] : List ℚ).length (5 + 1))
    ∧ ([1, 2] : List ℚ).length / 13
        ≤ bandEnd 13 ([1, 2] : List ℚ).length 5 - bandStart 13 ([1, 2] : List ℚ).length 5
    ∧ bandEnd 13 ([1, 2] : List ℚ).length 5 - bandStart 13 ([1, 2] : List ℚ).length 5
        ≤ ([1, 2] : List ℚ).length / 13 + 1
    ∧ (mfccBands ([1, 2] : List ℚ) 13).getD 5 0 = bandCoeff [1, 2] 13 5 :=
  c5_thm [1, 2] 5 (by decide)

/-- C6: for a clip with zero voiced frames (given the spec-modelled
consistency that zero voiced frames mean zero pulses) the praat
extraction returns without error and every pitch aggregate and
perturbation value is 0. -/
theorem c6_thm (pin : PraatIn) (hcons : VoicingPulseConsistent pin)
    (h0 : pin.f0Values = []) :
    (extract_praat_features pin).f0_mean = 0
    ∧ (extract_praat_features pin).f0_range = 0
    ∧ (extract_praat_features pin).jitter = 0
    ∧ (extract_praat_features pin).shimmer = 0 := by
  have hp : pin.nPulses = 0 := hcons h0
  by_cases hf : pin.fails
  · simp [extract_praat_features, hf, praatDefaults]
  · simp [extract_praat_features, hf, h0, jitterOf, shimmerOf, hp]

/-- C6 witness: a concrete library output with no voiced frames but a
live formant track. -/
theorem c6_witness :
    (extract_praat_features { pinOk with f1Values := [300], f2Values := [900] }).f0_mean = 0
    ∧ (extract_praat_features { pinOk with f1Values := [300], f2Values := [900] }).f0_range = 0
    ∧ (extract_praat_features { pinOk with f1Values := [300], f2Values := [900] }).jitter = 0
    ∧ (extract_praat_features { pinOk with f1Values := [300], f2Values := [900] }).shimmer = 0 :=
  c6_thm { pinOk with f1Values := [300], f2Values := [900] } (fun _ => rfl) rfl

/-- C2 counterexample: a failure inside the basic spectral/temporal
analyzer (its periodogram call raising) is not caught at that
sub-extractor's boundary; the request fails with the server error and no
feature record is returned. -/
theorem c2_counterexample :
    extract_features envPgFail (some (List.replicate 46 0)) = RouteResult.serverError := by
  norm_num [extract_features, decodeSamples, bytesToInt16, toInt16, envPgFail,
    compute_basic_features]

/-- C2 (amended): failures inside the cepstral approximator and the
pitch/formant/perturbation chain are caught at their own boundaries and
replaced with zero defaults, and extraction still returns a complete
record whatever those two sub-extractors do; but a failure inside the
basic spectral/temporal analyzer is not caught locally and aborts the
request with a server error. -/
theorem c2_thm (env : FeatureEnv) (data : List Nat) (samples : List ℚ)
    (hne : data ≠ []) (hdec : decodeSamples data = some samples) :
    (samples ≠ [] → env.periodogram samples = Except.error () →
      extract_features env (some data) = RouteResult.serverError)
    ∧ ((samples = [] ∨ ∃ pg, env.periodogram samples = Except.ok pg) →
      (extract_features env (some data)).isOk = true)
    ∧ compute_mfcc (Except.error ()) 13 = List.replicate 13 0
    ∧ (∀ pin : PraatIn, pin.fails = true → extract_praat_features pin = praatDefaults) := by
  have h0 : ¬ data.length = 0 := fun h => hne (List.length_eq_zero.mp h)
  refine ⟨?_, ?_, rfl, fun pin hf => by simp [extract_praat_features, hf]⟩
  · intro hs hpg
    have hxl : ¬ samples.length = 0 := fun h => hs (List.length_eq_zero.mp h)
    simp only [extract_features]
    rw [if_neg h0, hdec]
    simp [compute_basic_features, hxl, hpg]
  · rintro (hs | ⟨pg, hpg⟩)
    · subst hs
      simp only [extract_features]
      rw [if_neg h0, hdec]
      simp [compute_basic_features, RouteResult.isOk]
    · simp only [extract_features]
      rw [if_neg h0, hdec]
      by_cases hxl : samples.length = 0
      · simp [compute_basic_features, hxl, RouteResult.isOk]
      · obtain ⟨freqs, psd⟩ := pg
        simp [compute_basic_features, hxl, hpg, RouteResult.isOk]

/-- C2 witness: on a concrete 48-byte buffer a periodogram failure
aborts with the server error, while fft and praat failures still yield a
record; the two inner boundaries return their zero defaults. -/
theorem c2_witness :
    extract_features envPgFail (some (List.replicate 48 0)) = RouteResult.serverError
    ∧ (extract_features envSubFail (some (List.replicate 48 0))).isOk = true
    ∧ compute_mfcc (Except.error ()) 13 = List.replicate 13 0
    ∧ extract_praat_features { pinOk with fails := true } = praatDefaults := by
  have hdec : decodeSamples (List.replicate 48 0) = some [0, 0] := by
    norm_num [decodeSamples, bytesToInt16, toInt16, List.replicate]
  have h1 := c2_thm envPgFail (List.replicate 48 0) [0, 0] (by decide) hdec
  have h2 := c2_thm envSubFail (List.replicate 48 0) [0, 0] (by decide) hdec
  exact ⟨h1.1 (by decide) rfl, h2.2.1 (Or.inr ⟨([], []), rfl⟩), h1.2.2.1, h1.2.2.2 _ rfl⟩

/-- The sign-change count of an all-zero sample list is 0. -/
theorem countSignChanges_all_zero (l : List ℚ) (h : ∀ a ∈ l, a = 0) :
    countSignChanges l = 0 := by
  induction l with
  | nil => rfl
  | cons a tl ih =>
    cases tl with
    | nil => rfl
    | cons b rest =>
      have ha : a = 0 := h a (by simp)
      have hb : b = 0 := h b (by simp)
      have htl : ∀ x ∈ b :: rest, x = 0 := fun x hx => h x (List.mem_cons_of_mem a hx)
      unfold countSignChanges
      rw [ih htl, ha, hb]
      simp

/-- The mean of n copies of c is c. -/
theorem meanQ_replicate (n : Nat) (c : ℚ) (hn : 0 < n) : meanQ (List.replicate n c) = c := by
  unfold meanQ
  rw [List.sum_replicate, List.length_replicate, nsmul_eq_mul]
  exact mul_div_cancel_left₀ c (Nat.cast_ne_zero.mpr hn.ne')

/-- The flooring epsilon is strictly positive. -/
theorem epsFloor_pos : 0 < epsFloor := by norm_num [epsFloor]

/-- Every floored power bin is strictly positive. -/
theorem floorEps_mem_pos (psd : List ℚ) : ∀ p ∈ floorEps psd, 0 < p := by
  intro p hp
  simp only [floorEps, List.mem_map] at hp
  obtain ⟨q, _, rfl⟩ := hp
  exact lt_of_lt_of_le epsFloor_pos (le_max_right _ _)

/-- The total floored power of a non-empty bin list is strictly
positive. -/
theorem floorEps_sum_pos (psd : List ℚ) (h : psd ≠ []) : 0 < (floorEps psd).sum :=
  List.sum_pos _ (floorEps_mem_pos psd) (by simp [floorEps, h])

/-- The mean of a non-empty list of positive rationals is positive. -/
theorem meanQ_pos (l : List ℚ) (h : l ≠ []) (hall : ∀ p ∈ l, 0 < p) : 0 < meanQ l := by
  unfold meanQ
  exact div_pos (List.sum_pos l hall h) (by exact_mod_cast List.length_pos.mpr h)

/-- The guarded arithmetic mean of the floored bins of a non-empty psd
is strictly positive. -/
theorem arithMeanGuard_floorEps_pos (psd : List ℚ) (h : psd ≠ []) :
    0 < arithMeanGuard (floorEps psd) := by
  unfold arithMeanGuard
  rw [if_pos (by simp [floorEps, List.length_pos, h])]
  exact meanQ_pos _ (by simp [floorEps, h]) (floorEps_mem_pos psd)

/-- C7: for an all-zero waveform of non-zero length the basic analyzer
returns rms = 0 and zcr = 0, and the spectral-flatness division is never
by zero: with bins present the floored arithmetic mean is strictly
positive and the division branch is taken, and with no bins the guarded
0 fallback is taken instead of dividing. -/
theorem c7_thm (ops : FloatOps) (n : Nat) (freqs psd : List ℚ)
    (hsqrt : ops.sqrt 0 = 0) (hn : 0 < n) :
    ∃ b, compute_basic_features ops (List.replicate n 0) (Except.ok (freqs, psd)) = Except.ok b
      ∧ b.rms = 0 ∧ b.zcr = 0
      ∧ (psd ≠ [] → 0 < arithMeanGuard (floorEps psd)
          ∧ b.spectralFlatness
            = ops.exp (meanQ ((floorEps psd).map ops.log)) / arithMeanGuard (floorEps psd))
      ∧ (psd = [] → b.spectralFlatness = 0) := by
  have hlen : ¬ (List.replicate n (0 : ℚ)).length = 0 := by simp; omega
  have heq : compute_basic_features ops (List.replicate n 0) (Except.ok (freqs, psd))
      = Except.ok ⟨rmsOf ops (List.replicate n 0), zcrOf (List.replicate n 0),
          spectralCentroidOf freqs (floorEps psd), spectralFlatnessOf ops (floorEps psd)⟩ := by
    unfold compute_basic_features
    rw [if_neg hlen]
  refine ⟨_, heq, ?_, ?_, ?_, ?_⟩
  · show rmsOf ops (List.replicate n 0) = 0
    unfold rmsOf
    rw [if_pos (by simpa using hn)]
    have hmap : (List.replicate n (0 : ℚ)).map (fun v => v * v) = List.replicate n 0 := by
      simp
    rw [hmap, meanQ_replicate n 0 hn, hsqrt]
  · show zcrOf (List.replicate n 0) = 0
    unfold zcrOf
    split
    · rw [countSignChanges_all_zero _ (fun a ha => List.eq_of_mem_replicate ha)]
      simp
    · rfl
  · intro hpsd
    refine ⟨arithMeanGuard_floorEps_pos psd hpsd, ?_⟩
    show spectralFlatnessOf ops (floorEps psd) = _
    unfold spectralFlatnessOf
    rw [if_pos (arithMeanGuard_floorEps_pos psd hpsd)]
  · rintro rfl
    show spectralFlatnessOf ops (floorEps []) = 0
    simp [spectralFlatnessOf, arithMeanGuard, floorEps]

/-- C7 witness at 3 zero samples and a concrete 2-bin periodogram. -/
theorem c7_witness :
    ∃ b, compute_basic_features opsId (List.replicate 3 0) (Except.ok ([0, 1], [0, 0]))
        = Except.ok b
      ∧ b.rms = 0 ∧ b.zcr = 0
      ∧ (([0, 0] : List ℚ) ≠ [] → 0 < arithMeanGuard (floorEps [0, 0])
          ∧ b.spectralFlatness
            = opsId.exp (meanQ ((floorEps [0, 0]).map opsId.log)) / arithMeanGuard (floorEps [0, 0]))
      ∧ (([0, 0] : List ℚ) = [] → b.spectralFlatness = 0) :=
  c7_thm opsId 3 [0, 1] [0, 0] rfl (by decide)

/-- C9: flooring every periodogram bin at 1e-20 makes the total power
and the arithmetic mean strictly positive for any non-empty bin list, so
the 0 fallbacks of spectralCentroid and spectralFlatness are not taken:
both are computed by their division formulas, the flatness is strictly
positive, and for an all-zero psd (the periodogram of a silent
waveform) it equals 1. -/
theorem c9_thm (ops : FloatOps) (x freqs psd : List ℚ)
    (hexp : ∀ q, 0 < ops.exp q) (hlog : ∀ q, 0 < q → ops.exp (ops.log q) = q)
    (hx : x ≠ []) (hpsd : psd ≠ []) :
    0 < (floorEps psd).sum
    ∧ 0 < arithMeanGuard (floorEps psd)
    ∧ ∃ b, compute_basic_features ops x (Except.ok (freqs, psd)) = Except.ok b
        ∧ b.spectralCentroid
            = (List.zipWith (fun f p => f * p) freqs (floorEps psd)).sum / (floorEps psd).sum
        ∧ b.spectralFlatness
            = ops.exp (meanQ ((floorEps psd).map ops.log)) / arithMeanGuard (floorEps psd)
        ∧ 0 < b.spectralFlatness
        ∧ ((∀ p ∈ psd, p = 0) → b.spectralFlatness = 1) := by
  have hsum := floorEps_sum_pos psd hpsd
  have hmean := arithMeanGuard_floorEps_pos psd hpsd
  have hlen : ¬ x.length = 0 := fun h => hx (List.length_eq_zero.mp h)
  have heq : compute_basic_features ops x (Except.ok (freqs, psd))
      = Except.ok ⟨rmsOf ops x, zcrOf x, spectralCentroidOf freqs (floorEps psd),
          spectralFlatnessOf ops (floorEps psd)⟩ := by
    unfold compute_basic_features
    rw [if_neg hlen]
  have hflat : spectralFlatnessOf ops (floorEps psd)
      = ops.exp (meanQ ((floorEps psd).map ops.log)) / arithMeanGuard (floorEps psd) := by
    unfold spectralFlatnessOf
    rw [if_pos hmean]
  refine ⟨hsum, hmean, _, heq, ?_, hflat, ?_, ?_⟩
  · show spectralCentroidOf freqs (floorEps psd) = _
    unfold spectralCentroidOf
    rw [if_pos hsum]
  · show 0 < spectralFlatnessOf ops (floorEps psd)
    rw [hflat]
    exact div_pos (hexp _) hmean
  · intro hzero
    have hn : 0 < psd.length := List.length_pos.mpr hpsd
    have hrepl : floorEps psd = List.replicate psd.length epsFloor := by
      rw [List.eq_replicate_iff]
      refine ⟨by simp [floorEps], ?_⟩
      intro b hb
      simp only [floorEps, List.mem_map] at hb
      obtain ⟨q, hq, rfl⟩ := hb
      rw [hzero q hq]
      exact max_eq_right (le_of_lt epsFloor_pos)
    show spectralFlatnessOf ops (floorEps psd) = 1
    rw [hflat, hrepl, List.map_replicate, meanQ_replicate _ _ hn,
      hlog epsFloor epsFloor_pos]
    unfold arithMeanGuard
    rw [List.length_replicate, if_pos hn, meanQ_replicate _ _ hn]
    exact div_self (ne_of_gt epsFloor_pos)

/-- C9 witness at a concrete one-sample waveform and one all-zero bin. -/
theorem c9_witness :
    0 < (floorEps [0]).sum
    ∧ 0 < arithMeanGuard (floorEps [0])
    ∧ ∃ b, compute_basic_features opsId [5] (Except.ok ([1], [0])) = Except.ok b
        ∧ b.spectralCentroid
            = (List.zipWith (fun f p => f * p) [1] (floorEps [0])).sum / (floorEps [0]).sum
        ∧ b.spectralFlatness
            = opsId.exp (meanQ ((floorEps [0]).map opsId.log)) / arithMeanGuard (floorEps [0])
        ∧ 0 < b.spectralFlatness
        ∧ ((∀ p ∈ ([0] : List ℚ), p = 0) → b.spectralFlatness = 1) :=
  c9_thm opsId [5] [1] [0]
    (fun q => by
      simp only [opsId]
      split
      · assumption
      · norm_num)
    (fun q hq => by simp [opsId, hq])
    (by decide) (by decide)
